import Mathlib

/-!
Verification of the analysis pipeline orchestration engine of the
small-audio-toolkit repository: the method registry
(audio_toolkit/engine/registry.py), the results aggregator
(audio_toolkit/engine/results.py) and the analysis runner
(audio_toolkit/engine/runner.py), shallowly embedded in Lean.

Python dictionaries are modelled as insertion-ordered association lists
with string keys (`Dict`); Python values appearing in measurement maps,
parameter maps and the exported JSON document are modelled by the
inductive `PyVal`.  A Python call that may raise is modelled as a
function into `Except String _`, the error component being the string
form of the raised exception (`str(e)`), which may be empty.
Mutation of an object is modelled by explicit state passing.
-/

/-- Model of a Python value as it occurs in parameter maps, measurement
maps and in the JSON document built by `ResultsAggregator.get_results`.
Numeric payloads are opaque data for every property considered here, so
a single integer constructor suffices; `PyVal.none` models Python
`None`. -/
inductive PyVal : Type where
  | str : String → PyVal
  | int : Int → PyVal
  | bool : Bool → PyVal
  | none : PyVal
  | list : List PyVal → PyVal
  | dict : List (String × PyVal) → PyVal

/-- A Python `dict` with string keys: an association list in insertion
order with pairwise distinct keys (every `dict` a Python program builds
has distinct keys; lemmas state the needed `Nodup` hypotheses
explicitly). -/
abbrev Dict (α : Type) : Type := List (String × α)

/-- Key list of a dictionary, in insertion order. -/
def keys (d : Dict α) : List String := d.map Prod.fst

/-- Model of Python `d.get(k)` / `d[k]`: the value at the first
occurrence of the key. -/
def dget : Dict α → String → Option α
  | [], _ => Option.none
  | (k0, v0) :: d, k => if k0 = k then some v0 else dget d k

/-- Model of Python `d[k] = v`: update the entry in place when the key
is present (its position is kept), append a new entry otherwise. -/
def dset : Dict α → String → α → Dict α
  | [], k, v => [(k, v)]
  | (k0, v0) :: d, k, v => if k0 = k then (k0, v) :: d else (k0, v0) :: dset d k v

/-- Model of Python `k in d`. -/
def hasKey (d : Dict α) (k : String) : Bool := (dget d k).isSome

/-- Model of the Python dict merge `{**D, **P}` built in
`AnalysisRunner._execute_method` (runner.py line 226): a copy of `D`
updated key by key with the entries of `P`, in order. -/
def dmerge (D P : Dict α) : Dict α := P.foldl (fun acc kv => dset acc kv.1 kv.2) D

theorem dget_dset (d : Dict α) (k : String) (v : α) (q : String) :
    dget (dset d k v) q = if k = q then some v else dget d q := by
  induction d with
  | nil => simp [dset, dget]
  | cons hd tl ih =>
    obtain ⟨k0, v0⟩ := hd
    by_cases h0 : k0 = k
    · subst h0
      by_cases hq : k0 = q <;> simp [dset, dget, hq]
    · by_cases hq : k0 = q
      · subst hq
        have hk : ¬ k = k0 := fun h => h0 h.symm
        simp [dset, dget, if_neg h0, if_neg hk]
      · simp [dset, dget, if_neg h0, if_neg hq, ih]

theorem dset_dset (d : Dict α) (k : String) (v w : α) :
    dset (dset d k v) k w = dset d k w := by
  induction d with
  | nil => simp [dset]
  | cons hd tl ih =>
    obtain ⟨k0, v0⟩ := hd
    by_cases h0 : k0 = k
    · subst h0; simp [dset]
    · simp [dset, if_neg h0, ih]

theorem dset_absent (d : Dict α) (k : String) (v : α) (h : dget d k = Option.none) :
    dset d k v = d ++ [(k, v)] := by
  induction d with
  | nil => simp [dset]
  | cons hd tl ih =>
    obtain ⟨k0, v0⟩ := hd
    by_cases h0 : k0 = k
    · subst h0; simp [dget] at h
    · simp only [dget, if_neg h0] at h
      simp [dset, if_neg h0, ih h]

theorem dget_append_left_none (d1 d2 : Dict α) (k : String)
    (h : dget d1 k = Option.none) : dget (d1 ++ d2) k = dget d2 k := by
  induction d1 with
  | nil => simp
  | cons hd tl ih =>
    obtain ⟨k0, v0⟩ := hd
    by_cases h0 : k0 = k
    · subst h0; simp [dget] at h
    · simp only [dget, if_neg h0] at h
      simp [dget, if_neg h0, ih h]

theorem dget_none_of_not_mem (d : Dict α) (k : String) (h : k ∉ keys d) :
    dget d k = Option.none := by
  induction d with
  | nil => rfl
  | cons hd tl ih =>
    obtain ⟨k0, v0⟩ := hd
    simp only [keys, List.map_cons, List.mem_cons, not_or] at h
    have h1 : ¬ k0 = k := fun he => h.1 he.symm
    simp only [dget, if_neg h1]
    exact ih h.2

theorem hasKey_cons (k0 : String) (v0 : α) (d : Dict α) (k : String) :
    hasKey ((k0, v0) :: d) k = (if k0 = k then true else hasKey d k) := by
  by_cases h0 : k0 = k <;> simp [hasKey, dget, h0]

/-- Key/value characterisation of the Python merge `{**D, **P}`: a key of
`P` gets the value from `P`, every other key gets the value from `D`. -/
theorem dget_dmerge (D P : Dict α) (k : String) (hP : (keys P).Nodup) :
    dget (dmerge D P) k = if hasKey P k then dget P k else dget D k := by
  induction P generalizing D with
  | nil => simp [dmerge, hasKey, dget]
  | cons hd tl ih =>
    obtain ⟨k0, v0⟩ := hd
    simp only [keys, List.map_cons, List.nodup_cons] at hP
    have step : dmerge D ((k0, v0) :: tl) = dmerge (dset D k0 v0) tl := rfl
    rw [step, ih (dset D k0 v0) hP.2, hasKey_cons]
    by_cases h0 : k0 = k
    · subst h0
      have hnk : hasKey tl k0 = false := by
        simp only [hasKey]
        rw [dget_none_of_not_mem tl k0 (by simpa [keys] using hP.1)]
        rfl
      simp [hnk, dget, dget_dset]
    · by_cases htl : hasKey tl k
      · simp [htl, dget, if_neg h0]
      · simp [htl, dget, if_neg h0, dget_dset]

/-! ## Data model: engine/context.py and engine/results.py -/

/-- Embedding of `AnalysisContext` (engine/context.py): the immutable
bundle passed to every analysis method.  Channel sample arrays are
opaque payloads for the properties considered here. -/
structure AnalysisContext : Type where
  audio_data : Dict PyVal
  sample_rate : Int
  segments : List (Int × Int)
  metadata : Dict PyVal

/-- Embedding of the dataclass `AnalysisResult` (engine/results.py).
The field types follow the dataclass annotations: `measurements` is a
dict, `metrics` and `visualization_data` are optional dicts,
`anomaly_score` is an optional numeric payload. -/
structure AnalysisResult : Type where
  method : String
  measurements : Dict PyVal
  metrics : Option (Dict PyVal) := Option.none
  anomaly_score : Option PyVal := Option.none
  visualization_data : Option (Dict PyVal) := Option.none

/-- Embedding of Python `None`-or-value for serialisation. -/
def pyOpt (o : Option PyVal) : PyVal := o.getD PyVal.none

/-- Embedding of `AnalysisResult.to_dict` (engine/results.py lines
27-29): `dataclasses.asdict` produces a fresh dictionary with one entry
per field, in field-declaration order, recursively copying nested
containers (copying is the identity in this pure model). -/
def AnalysisResult.to_dict (r : AnalysisResult) : Dict PyVal :=
  [("method", PyVal.str r.method),
   ("measurements", PyVal.dict r.measurements),
   ("metrics", pyOpt (r.metrics.map PyVal.dict)),
   ("anomaly_score", pyOpt r.anomaly_score),
   ("visualization_data", pyOpt (r.visualization_data.map PyVal.dict))]

/-- Embedding of the state of `ResultsAggregator` (engine/results.py):
`results` maps a category to the ordered list of its results,
`timestamp` is fixed at construction (`datetime.now().isoformat()`,
taken as a parameter of the initialiser). -/
structure ResultsAggregator : Type where
  results : Dict (List AnalysisResult)
  metadata : Dict PyVal
  timestamp : String

/-- `ResultsAggregator.__init__`: empty results, empty metadata, the
construction-time timestamp. -/
def ResultsAggregator.init (timestamp : String) : ResultsAggregator :=
  { results := [], metadata := [], timestamp := timestamp }

/-- Embedding of `ResultsAggregator.add_result`: create the category
list when absent, then append the result to it. -/
def ResultsAggregator.add_result (agg : ResultsAggregator) (category : String)
    (result : AnalysisResult) : ResultsAggregator :=
  { agg with
    results := dset agg.results category
      (((dget agg.results category).getD []) ++ [result]) }

/-- Embedding of `ResultsAggregator.get_results`: a fresh document
`{timestamp, metadata, results: {category: [entry.to_dict, ...]}}`,
categories in insertion order. -/
def ResultsAggregator.get_results (agg : ResultsAggregator) : Dict PyVal :=
  [("timestamp", PyVal.str agg.timestamp),
   ("metadata", PyVal.dict agg.metadata),
   ("results", PyVal.dict (agg.results.map
      (fun c => (c.1, PyVal.list (c.2.map (fun r => PyVal.dict r.to_dict))))))]

/-- The per-entry deletion `del result[..]` performed by `export_json`
on each freshly built result dictionary: drop the `visualization_data`
key (a no-op when the key is absent, matching the guarding `in`). -/
def stripKeys (d : Dict PyVal) : Dict PyVal :=
  d.filter (fun kv => kv.1 != "visualization_data")

/-- The deletion applied to one element of a category list (always a
result dictionary in the document built by `get_results`). -/
def stripEntry : PyVal → PyVal
  | PyVal.dict d => PyVal.dict (stripKeys d)
  | v => v

/-- The inner loop `for result in category: ...` of `export_json`. -/
def stripCategory : PyVal → PyVal
  | PyVal.list entries => PyVal.list (entries.map stripEntry)
  | v => v

/-- The outer loop over `results.get(..).values()` of `export_json`. -/
def stripResults : PyVal → PyVal
  | PyVal.dict cats => PyVal.dict (cats.map (fun c => (c.1, stripCategory c.2)))
  | v => v

/-- The document written by `ResultsAggregator.export_json`
(engine/results.py lines 85-114): the `get_results` snapshot, with
`visualization_data` removed from every result entry unless
`include_viz_data` is set.  `json.dump` serialises this value
deterministically, so two equal documents give byte-identical files. -/
def ResultsAggregator.export_artifact (agg : ResultsAggregator)
    (include_viz_data : Bool) : Dict PyVal :=
  let results := agg.get_results
  if include_viz_data then results
  else results.map (fun kv => if kv.1 = "results" then (kv.1, stripResults kv.2) else kv)

/-- State-passing embedding of `ResultsAggregator.export_json`: the
deletions act on the dictionaries freshly built by `get_results` and
`asdict`, never on the stored `AnalysisResult` objects, so the
aggregator state is returned unchanged. -/
def ResultsAggregator.export_json (agg : ResultsAggregator)
    (include_viz_data : Bool) : Dict PyVal × ResultsAggregator :=
  (agg.export_artifact include_viz_data, agg)

/-! ## Registry: engine/registry.py -/

/-- Type of a registered analysis callable, `(context, params) ->
AnalysisResult`; a call either returns a result or raises, the raised
exception being carried as its string form `str(e)` (possibly empty). -/
abbrev Func : Type := AnalysisContext → Dict PyVal → Except String AnalysisResult

/-- Embedding of the dataclass `MethodRegistration`
(engine/registry.py lines 15-24). -/
structure MethodRegistration : Type where
  identifier : String
  category : String
  function : Func
  description : String
  default_params : Dict PyVal

/-- The `_methods` dictionary of `MethodRegistry`. -/
abbrev Registry : Type := Dict MethodRegistration

/-- State-passing embedding of `MethodRegistry.register`
(engine/registry.py lines 35-68): raise `ValueError` when the
identifier is already present (the registry is left untouched, the
`raise` precedes the insertion), otherwise store the registration under
the identifier.  `default_params or \x7b\x7d` maps `None` (and the
falsy empty dict) to the empty dict. -/
def MethodRegistry.register (m : Registry) (identifier category : String)
    (function : Func) (description : String)
    (default_params : Option (Dict PyVal)) : Except String Unit × Registry :=
  if hasKey m identifier then
    (Except.error ("Method \x27" ++ identifier ++ "\x27 is already registered"), m)
  else
    (Except.ok (),
     dset m identifier
       { identifier := identifier, category := category, function := function,
         description := description, default_params := default_params.getD [] })

/-- Embedding of `MethodRegistry.get_method` (engine/registry.py lines
70-80): `self._methods.get(identifier)`, a total lookup returning
`none` (Python `None`) when absent. -/
def MethodRegistry.get_method (m : Registry) (identifier : String) :
    Option MethodRegistration :=
  dget m identifier

/-! ## Runner: engine/runner.py -/

/-- One entry of a category method list, as read by `_execute_method`:
`method_config.get("name")` and `method_config.get("params", \x7b\x7d)`. -/
structure MethodEntry : Type where
  name : Option String
  params : Dict PyVal

/-- One configured category, as read by `_execute_analyses`:
`category_config.get("enabled", False)` and
`category_config.get("methods", [])`.  (An entry whose value is not a
dict is skipped by the `isinstance` guard and has no counterpart in
this typed model.) -/
structure CategoryConfig : Type where
  enabled : Bool
  methods : List MethodEntry

/-- The `analyses` section of the configuration: category name to
category configuration, in declared order. -/
abbrev AnalysesConfig : Type := Dict CategoryConfig

/-- The synthetic result built in the `except` branch of
`AnalysisRunner._execute_method` (runner.py lines 245-249) for a
callable that raised with message `e`. -/
def errorResult (method_name e : String) : AnalysisResult :=
  { method := method_name,
    measurements := [("error", PyVal.str e)],
    metrics := some [("execution_failed", PyVal.bool true)] }

/-- Embedding of `AnalysisRunner._execute_method` (runner.py lines
214-250).  A missing or empty (falsy) name: warn and skip.  An
identifier the registry does not resolve: warn and skip.  Otherwise
merge `\x7b**default_params, **params\x7d` and invoke the callable; a
normal return is appended verbatim (the subsequent check of an
`error` measurement key only logs); a raised exception is converted to
`errorResult` and appended, and execution continues.  Logging has no
state in this model. -/
def executeMethod (reg : Registry) (ctx : AnalysisContext) (category : String)
    (mc : MethodEntry) (agg : ResultsAggregator) : ResultsAggregator :=
  match mc.name with
  | Option.none => agg
  | some method_name =>
    if method_name = "" then agg
    else
      match MethodRegistry.get_method reg method_name with
      | Option.none => agg
      | some registration =>
        match registration.function ctx (dmerge registration.default_params mc.params) with
        | Except.ok result => agg.add_result category result
        | Except.error e => agg.add_result category (errorResult method_name e)

/-- Embedding of `AnalysisRunner._execute_analyses` (runner.py lines
196-212): iterate configured categories in declared order, skip a
category that is not enabled, run the methods of an enabled category in
list order (an empty method list contributes nothing). -/
def executeAnalyses (reg : Registry) (ctx : AnalysisContext)
    (cfg : AnalysesConfig) (agg : ResultsAggregator) : ResultsAggregator :=
  cfg.foldl
    (fun acc c =>
      if c.2.enabled then
        c.2.methods.foldl (fun a mc => executeMethod reg ctx c.1 mc a) acc
      else acc)
    agg

/-! ## Declarative description of one run, written from the spec
wording, for comparison with `executeAnalyses`. -/

/-- Results contributed by a single method entry: none when the entry
is skipped (missing/empty name, unresolved identifier), exactly one
otherwise — the returned result, or the synthetic error result. -/
def methodResults (reg : Registry) (ctx : AnalysisContext)
    (mc : MethodEntry) : List AnalysisResult :=
  match mc.name with
  | Option.none => []
  | some method_name =>
    if method_name = "" then []
    else
      match MethodRegistry.get_method reg method_name with
      | Option.none => []
      | some registration =>
        match registration.function ctx (dmerge registration.default_params mc.params) with
        | Except.ok result => [result]
        | Except.error e => [errorResult method_name e]

/-- Results contributed by one configured category: nothing when
disabled, otherwise the attempted methods in list order. -/
def categoryResults (reg : Registry) (ctx : AnalysisContext)
    (cc : CategoryConfig) : List AnalysisResult :=
  if cc.enabled then (cc.methods.map (methodResults reg ctx)).flatten else []

/-- The aggregator `results` map one run is expected to produce:
configured categories in declared order, each with its attempted
methods in list order; a category contributing no result does not
appear. -/
def runSpec (reg : Registry) (ctx : AnalysisContext)
    (cfg : AnalysesConfig) : Dict (List AnalysisResult) :=
  (cfg.map (fun c => (c.1, categoryResults reg ctx c.2))).filter
    (fun c => !c.2.isEmpty)

/-! ## Lemmas about the runner -/

/-- Append a list of results one by one under a fixed category. -/
def addAll (cat : String) (rs : List AnalysisResult) (agg : ResultsAggregator) :
    ResultsAggregator :=
  rs.foldl (fun a r => a.add_result cat r) agg

theorem executeMethod_eq (reg : Registry) (ctx : AnalysisContext) (cat : String)
    (mc : MethodEntry) (agg : ResultsAggregator) :
    executeMethod reg ctx cat mc agg = addAll cat (methodResults reg ctx mc) agg := by
  cases hname : mc.name with
  | none => simp [executeMethod, methodResults, hname, addAll]
  | some n =>
    by_cases hn : n = ""
    · simp [executeMethod, methodResults, hname, hn, addAll]
    · cases hreg : MethodRegistry.get_method reg n with
      | none => simp [executeMethod, methodResults, hname, hn, hreg, addAll]
      | some r =>
        cases hf : r.function ctx (dmerge r.default_params mc.params) with
        | ok res => simp [executeMethod, methodResults, hname, hn, hreg, hf, addAll]
        | error e => simp [executeMethod, methodResults, hname, hn, hreg, hf, addAll]

theorem addAll_append (cat : String) (rs1 rs2 : List AnalysisResult)
    (agg : ResultsAggregator) :
    addAll cat (rs1 ++ rs2) agg = addAll cat rs2 (addAll cat rs1 agg) := by
  simp [addAll, List.foldl_append]

theorem addAll_eq (cat : String) (rs : List AnalysisResult) (agg : ResultsAggregator) :
    addAll cat rs agg =
      if rs.isEmpty then agg
      else { agg with
             results := dset agg.results cat
               (((dget agg.results cat).getD []) ++ rs) } := by
  induction rs generalizing agg with
  | nil => simp [addAll]
  | cons r rs ih =>
    rw [show addAll cat (r :: rs) agg = addAll cat rs (agg.add_result cat r) from rfl, ih]
    cases rs with
    | nil => rfl
    | cons r2 rs2 =>
      simp only [List.isEmpty_cons, if_neg, Bool.false_eq_true, not_false_eq_true]
      simp [ResultsAggregator.add_result, dget_dset, dset_dset]

theorem foldMethods_eq (reg : Registry) (ctx : AnalysisContext) (cat : String)
    (mcs : List MethodEntry) (agg : ResultsAggregator) :
    mcs.foldl (fun a mc => executeMethod reg ctx cat mc a) agg =
      addAll cat ((mcs.map (methodResults reg ctx)).flatten) agg := by
  induction mcs generalizing agg with
  | nil => simp [addAll]
  | cons mc mcs ih =>
    simp only [List.foldl_cons, List.map_cons, List.flatten_cons]
    rw [ih, executeMethod_eq, addAll_append]

theorem executeAnalyses_step (reg : Registry) (ctx : AnalysisContext)
    (cat : String) (cc : CategoryConfig) (cfg : AnalysesConfig)
    (agg : ResultsAggregator) :
    executeAnalyses reg ctx ((cat, cc) :: cfg) agg =
      executeAnalyses reg ctx cfg (addAll cat (categoryResults reg ctx cc) agg) := by
  by_cases he : cc.enabled
  · simp only [executeAnalyses, List.foldl_cons, he, if_pos, categoryResults,
      if_true]
    rw [foldMethods_eq]
  · simp only [executeAnalyses, List.foldl_cons, he, categoryResults,
      if_false, Bool.false_eq_true]
    simp [addAll, he]

theorem executeAnalyses_eq (reg : Registry) (ctx : AnalysisContext)
    (cfg : AnalysesConfig) (agg : ResultsAggregator)
    (hnd : (keys cfg).Nodup)
    (hdisj : ∀ c ∈ keys cfg, dget agg.results c = Option.none) :
    executeAnalyses reg ctx cfg agg =
      { agg with results := agg.results ++ runSpec reg ctx cfg } := by
  induction cfg generalizing agg with
  | nil => simp [executeAnalyses, runSpec]
  | cons hd cfg ih =>
    obtain ⟨cat, cc⟩ := hd
    simp only [keys, List.map_cons, List.nodup_cons] at hnd
    have hcat : dget agg.results cat = Option.none :=
      hdisj cat (by simp [keys])
    rw [executeAnalyses_step, addAll_eq]
    cases hrs : categoryResults reg ctx cc with
    | nil =>
      simp only [List.isEmpty_nil, if_pos]
      rw [ih agg hnd.2 (fun c hc => hdisj c (by simp [keys] at hc ⊢; right; exact hc))]
      simp [runSpec, hrs]
    | cons r0 rs0 =>
      simp only [List.isEmpty_cons, if_neg, Bool.false_eq_true, not_false_eq_true]
      rw [hcat]
      simp only [Option.getD_none, List.nil_append]
      rw [dset_absent agg.results cat _ hcat]
      set agg1 : ResultsAggregator :=
        { agg with results := agg.results ++ [(cat, r0 :: rs0)] } with hagg1
      have hd1 : ∀ c ∈ keys cfg, dget agg1.results c = Option.none := by
        intro c hc
        have hc0 : dget agg.results c = Option.none :=
          hdisj c (by simp [keys] at hc ⊢; right; exact hc)
        have hne : ¬ cat = c := by
          intro he; subst he
          exact hnd.1 (by simpa [keys] using hc)
        rw [hagg1]
        simp only []
        rw [dget_append_left_none _ _ _ hc0]
        simp [dget, hne]
      rw [ih agg1 hnd.2 hd1]
      simp only [hagg1]
      simp [runSpec, hrs, List.filter_cons]

/-! ## Concrete fixtures used by witnesses and counterexamples -/

/-- A minimal concrete context for concrete evaluations. -/
def ctx0 : AnalysisContext :=
  { audio_data := [], sample_rate := 44100, segments := [], metadata := [] }

/-! ## Claims about the registry -/

/-- Claim C4: registering an identifier once succeeds and a lookup then
returns exactly the stored registration; registering the same
identifier a second time fails with the duplicate-registration error;
looking up a never-registered identifier returns the not-found sentinel
`none` (lookup is a total function, it cannot throw). -/
theorem register_once_then_lookup (m : Registry) (i c : String) (f : Func)
    (d : String) (dp : Option (Dict PyVal)) (h : dget m i = Option.none) :
    (∃ m2, MethodRegistry.register m i c f d dp = (Except.ok (), m2)
      ∧ MethodRegistry.get_method m2 i =
          some { identifier := i, category := c, function := f,
                 description := d, default_params := dp.getD [] }
      ∧ (∀ (c2 : String) (f2 : Func) (d2 : String) (dp2 : Option (Dict PyVal)),
          MethodRegistry.register m2 i c2 f2 d2 dp2 =
            (Except.error ("Method \x27" ++ i ++ "\x27 is already registered"), m2)))
    ∧ MethodRegistry.get_method m i = Option.none := by
  have hk : hasKey m i = false := by simp [hasKey, h]
  refine ⟨⟨dset m i
      { identifier := i, category := c, function := f,
        description := d, default_params := dp.getD [] }, ?_, ?_, ?_⟩, h⟩
  · simp [MethodRegistry.register, hk]
  · simp [MethodRegistry.get_method, dget_dset]
  · intro c2 f2 d2 dp2
    simp [MethodRegistry.register, hasKey, dget_dset]

theorem register_once_then_lookup_witness :
    dget ([] : Registry) "m1" = Option.none
    ∧ ((∃ m2,
        MethodRegistry.register ([] : Registry) "m1" "temporal"
            (fun _ _ => Except.ok { method := "m1", measurements := [] }) "desc"
            (some [("window", PyVal.str "hann")]) = (Except.ok (), m2)
        ∧ MethodRegistry.get_method m2 "m1" =
            some { identifier := "m1", category := "temporal",
                   function := fun _ _ => Except.ok { method := "m1", measurements := [] },
                   description := "desc",
                   default_params := (some [("window", PyVal.str "hann")]).getD [] }
        ∧ (∀ (c2 : String) (f2 : Func) (d2 : String) (dp2 : Option (Dict PyVal)),
            MethodRegistry.register m2 "m1" c2 f2 d2 dp2 =
              (Except.error ("Method \x27m1\x27 is already registered"), m2)))
      ∧ MethodRegistry.get_method ([] : Registry) "m1" = Option.none) :=
  ⟨rfl, register_once_then_lookup [] "m1" "temporal"
      (fun _ _ => Except.ok { method := "m1", measurements := [] }) "desc"
      (some [("window", PyVal.str "hann")]) rfl⟩

/-- Claim C9: a rejected duplicate registration leaves the registry
completely unchanged — the raise precedes the insertion, so the stored
registration survives and no entry is added under any identifier. -/
theorem failed_register_preserves_registry (m : Registry) (i : String)
    (r : MethodRegistration) (c : String) (f : Func) (d : String)
    (dp : Option (Dict PyVal)) (h : dget m i = some r) :
    (MethodRegistry.register m i c f d dp).2 = m
    ∧ (MethodRegistry.register m i c f d dp).1 =
        Except.error ("Method \x27" ++ i ++ "\x27 is already registered")
    ∧ MethodRegistry.get_method (MethodRegistry.register m i c f d dp).2 i = some r
    ∧ (∀ j, dget (MethodRegistry.register m i c f d dp).2 j = dget m j) := by
  have hk : hasKey m i = true := by simp [hasKey, h]
  refine ⟨?_, ?_, ?_, ?_⟩ <;>
    simp [MethodRegistry.register, hk, MethodRegistry.get_method, h]

theorem failed_register_preserves_registry_witness :
    dget ([("m1", { identifier := "m1", category := "temporal",
                    function := fun _ _ => Except.ok { method := "m1", measurements := [] },
                    description := "old", default_params := [] })] : Registry) "m1"
      = some { identifier := "m1", category := "temporal",
               function := fun _ _ => Except.ok { method := "m1", measurements := [] },
               description := "old", default_params := [] }
    ∧ (MethodRegistry.register
        ([("m1", { identifier := "m1", category := "temporal",
                   function := fun _ _ => Except.ok { method := "m1", measurements := [] },
                   description := "old", default_params := [] })] : Registry)
        "m1" "spectral" (fun _ _ => Except.error "new") "new" Option.none).2
      = [("m1", { identifier := "m1", category := "temporal",
                  function := fun _ _ => Except.ok { method := "m1", measurements := [] },
                  description := "old", default_params := [] })] :=
  ⟨rfl,
   (failed_register_preserves_registry
      [("m1", { identifier := "m1", category := "temporal",
                function := fun _ _ => Except.ok { method := "m1", measurements := [] },
                description := "old", default_params := [] })]
      "m1"
      { identifier := "m1", category := "temporal",
        function := fun _ _ => Except.ok { method := "m1", measurements := [] },
        description := "old", default_params := [] }
      "spectral" (fun _ _ => Except.error "new") "new" Option.none rfl).1⟩

/-! ## Claim about parameter merging -/

/-- Claim C3: the parameter map passed to the callable is the
registration defaults overlaid key by key with the explicit params —
every key of `P` takes the value of `P` (keys absent from `D` pass
through), every key of `D` not in `P` keeps the default — and this
two-layer merge is the only parameterization the orchestrator applies:
for a resolvable entry the callable is invoked exactly on
`dmerge r.default_params mc.params`. -/
theorem merged_params_characterisation
    (D P : Dict PyVal) (k : String) (reg : Registry) (ctx : AnalysisContext)
    (cat : String) (mc : MethodEntry) (agg : ResultsAggregator)
    (name : String) (r : MethodRegistration)
    (hP : (keys P).Nodup) (h1 : mc.name = some name) (h2 : ¬ name = "")
    (h3 : MethodRegistry.get_method reg name = some r) :
    (dget (dmerge D P) k = if hasKey P k then dget P k else dget D k)
    ∧ executeMethod reg ctx cat mc agg =
        (match r.function ctx (dmerge r.default_params mc.params) with
         | Except.ok result => agg.add_result cat result
         | Except.error e => agg.add_result cat (errorResult name e)) := by
  refine ⟨dget_dmerge D P k hP, ?_⟩
  simp [executeMethod, h1, h2, h3]

theorem merged_params_characterisation_witness :
    ((keys ([("nfft", PyVal.int 2048)] : Dict PyVal)).Nodup
      ∧ ({ name := some "m1", params := [("nfft", PyVal.int 2048)] : MethodEntry}.name
          = some "m1")
      ∧ ¬ ("m1" : String) = ""
      ∧ MethodRegistry.get_method
          ([("m1", { identifier := "m1", category := "temporal",
                     function := fun _ _ => Except.ok { method := "m1", measurements := [] },
                     description := "", default_params := [("nfft", PyVal.int 1024), ("window", PyVal.str "hann")] })] : Registry)
          "m1"
        = some { identifier := "m1", category := "temporal",
                 function := fun _ _ => Except.ok { method := "m1", measurements := [] },
                 description := "",
                 default_params := [("nfft", PyVal.int 1024), ("window", PyVal.str "hann")] })
    ∧ dget (dmerge [("nfft", PyVal.int 1024), ("window", PyVal.str "hann")]
              [("nfft", PyVal.int 2048)]) "nfft"
        = (if hasKey ([("nfft", PyVal.int 2048)] : Dict PyVal) "nfft"
           then dget ([("nfft", PyVal.int 2048)] : Dict PyVal) "nfft"
           else dget ([("nfft", PyVal.int 1024), ("window", PyVal.str "hann")] : Dict PyVal) "nfft") :=
  ⟨⟨by decide, rfl, by decide, rfl⟩,
   (merged_params_characterisation
      [("nfft", PyVal.int 1024), ("window", PyVal.str "hann")]
      [("nfft", PyVal.int 2048)] "nfft"
      [("m1", { identifier := "m1", category := "temporal",
                function := fun _ _ => Except.ok { method := "m1", measurements := [] },
                description := "",
                default_params := [("nfft", PyVal.int 1024), ("window", PyVal.str "hann")] })]
      ctx0 "temporal"
      { name := some "m1", params := [("nfft", PyVal.int 2048)] }
      (ResultsAggregator.init "t0") "m1"
      { identifier := "m1", category := "temporal",
        function := fun _ _ => Except.ok { method := "m1", measurements := [] },
        description := "",
        default_params := [("nfft", PyVal.int 1024), ("window", PyVal.str "hann")] }
      (by decide) rfl (by decide) rfl).1⟩

/-! ## Claims about the export projection -/

/-- Claim C5: an export with `include_viz_data = false` produces an
artifact in which no result entry of any category contains a
`visualization_data` key — even when every in-memory result carries a
payload — and every persisted entry holds exactly the keys
`method, measurements, metrics, anomaly_score`. -/
theorem export_without_viz_strips_all (agg : ResultsAggregator) (r : AnalysisResult) :
    agg.export_artifact false =
      [("timestamp", PyVal.str agg.timestamp),
       ("metadata", PyVal.dict agg.metadata),
       ("results", PyVal.dict (agg.results.map
          (fun c => (c.1, PyVal.list (c.2.map
             (fun x => PyVal.dict (stripKeys x.to_dict)))))))]
    ∧ keys (stripKeys r.to_dict) = ["method", "measurements", "metrics", "anomaly_score"]
    ∧ "visualization_data" ∉ keys (stripKeys r.to_dict) := by
  refine ⟨?_, ?_, ?_⟩
  · simp [ResultsAggregator.export_artifact, ResultsAggregator.get_results,
      stripResults, stripCategory, stripEntry, List.map_map, Function.comp]
  · rfl
  · show "visualization_data" ∉ ["method", "measurements", "metrics", "anomaly_score"]
    decide

/-- Claim C6: exporting the same aggregator state twice with the same
arguments yields equal artifacts (hence byte-identical files, since
`json.dump` is a deterministic serialisation of the document), because
the first export returns the aggregator state unchanged — the
timestamp is part of that state, so it is fixed across both exports. -/
theorem export_idempotent (agg : ResultsAggregator) (include_viz_data : Bool) :
    ResultsAggregator.export_json (agg.export_json include_viz_data).2 include_viz_data
      = agg.export_json include_viz_data
    ∧ (agg.export_json include_viz_data).2 = agg :=
  ⟨rfl, rfl⟩

/-- Claim C10: exporting with `include_viz_data = false` does not
mutate the aggregator — stripping acts on the freshly built
dictionaries only — so the stored results keep their
`visualization_data`, a later snapshot is unchanged, and a later export
with `include_viz_data = true` (which is exactly the snapshot) still
carries every visualization payload in its entries. -/
theorem export_does_not_mutate (agg : ResultsAggregator) :
    (agg.export_json false).2 = agg
    ∧ ((agg.export_json false).2).results = agg.results
    ∧ ((agg.export_json false).2).get_results = agg.get_results
    ∧ ((agg.export_json false).2).export_artifact true = agg.get_results
    ∧ (∀ r : AnalysisResult, dget r.to_dict "visualization_data" =
        some (pyOpt (r.visualization_data.map PyVal.dict))) :=
  ⟨rfl, rfl, rfl, rfl, fun _ => rfl⟩

/-! ## Claims about the runner -/

/-- Claim C7: a configured method whose identifier the registry does
not resolve is skipped with a warning (logging is stateless here): no
result is appended, nothing is raised, and — since the skip leaves the
state unchanged and the folds simply continue — every other configured
method, in the same and in later categories, still executes. -/
theorem unknown_method_skipped (reg : Registry) (ctx : AnalysisContext)
    (cat : String) (mc : MethodEntry) (agg : ResultsAggregator) (name : String)
    (h1 : mc.name = some name) (h2 : ¬ name = "")
    (h3 : MethodRegistry.get_method reg name = Option.none) :
    executeMethod reg ctx cat mc agg = agg
    ∧ (∀ (mcs1 mcs2 : List MethodEntry) (a : ResultsAggregator),
        (mcs1 ++ mc :: mcs2).foldl (fun x m => executeMethod reg ctx cat m x) a =
          mcs2.foldl (fun x m => executeMethod reg ctx cat m x)
            (mcs1.foldl (fun x m => executeMethod reg ctx cat m x) a))
    ∧ (∀ (cfg1 cfg2 : AnalysesConfig) (a : ResultsAggregator),
        executeAnalyses reg ctx (cfg1 ++ cfg2) a =
          executeAnalyses reg ctx cfg2 (executeAnalyses reg ctx cfg1 a)) := by
  have hskip : ∀ a : ResultsAggregator, executeMethod reg ctx cat mc a = a := by
    intro a; simp [executeMethod, h1, h2, h3]
  refine ⟨hskip agg, ?_, ?_⟩
  · intro mcs1 mcs2 a
    rw [List.foldl_append, List.foldl_cons, hskip]
  · intro cfg1 cfg2 a
    simp [executeAnalyses, List.foldl_append]

theorem unknown_method_skipped_witness :
    (({ name := some "ghost", params := [] : MethodEntry}).name = some "ghost"
      ∧ ¬ ("ghost" : String) = ""
      ∧ MethodRegistry.get_method ([] : Registry) "ghost" = Option.none)
    ∧ executeMethod ([] : Registry) ctx0 "temporal"
        { name := some "ghost", params := [] } (ResultsAggregator.init "t0")
      = ResultsAggregator.init "t0" :=
  ⟨⟨rfl, by decide, rfl⟩,
   (unknown_method_skipped [] ctx0 "temporal" { name := some "ghost", params := [] }
      (ResultsAggregator.init "t0") "ghost" rfl (by decide) rfl).1⟩

/-- The registry used to refute the non-emptiness part of claim C1: its
one callable raises an exception whose string form is empty (in Python,
`raise ValueError()` gives `str(e) == ""`). -/
def regRaisingEmpty : Registry :=
  [("m1", { identifier := "m1", category := "temporal",
            function := fun _ _ => Except.error "",
            description := "", default_params := [] })]

/-- Counterexample to claim C1 as stated: for the registered callable
of `regRaisingEmpty`, which raises with an empty message, the run does
append exactly one flagged result for the method — but its error
message is the empty string, so the claimed non-empty error message
does not exist. -/
theorem empty_error_message_counterexample :
    (executeMethod regRaisingEmpty ctx0 "temporal"
        { name := some "m1", params := [] }
        (ResultsAggregator.init "t0")).results
      = [("temporal", [errorResult "m1" ""])]
    ∧ ¬ (∃ s, dget (errorResult "m1" "").measurements "error" = some (PyVal.str s)
          ∧ s ≠ "") := by
  constructor
  · rfl
  · rintro ⟨s, hs, hne⟩
    simp [errorResult, dget] at hs
    exact hne hs.symm

/-- Claim C1 as amended: when a resolvable configured callable raises
with message `e` (possibly empty — `str(e)` of the raised exception),
the run appends exactly one result for that method, a synthetic one
carrying the error message in its measurements and
`metrics.execution_failed = true`; the methods after it in the same
category run from the state holding that one appended result, later
categories run unchanged, and the run is never aborted. -/
theorem raising_method_isolated (reg : Registry) (ctx : AnalysisContext)
    (cat : String) (mc : MethodEntry) (agg : ResultsAggregator)
    (name e : String) (r : MethodRegistration)
    (h1 : mc.name = some name) (h2 : ¬ name = "")
    (h3 : MethodRegistry.get_method reg name = some r)
    (h4 : r.function ctx (dmerge r.default_params mc.params) = Except.error e) :
    executeMethod reg ctx cat mc agg = agg.add_result cat (errorResult name e)
    ∧ (executeMethod reg ctx cat mc agg).results =
        dset agg.results cat (((dget agg.results cat).getD []) ++ [errorResult name e])
    ∧ (errorResult name e).metrics = some [("execution_failed", PyVal.bool true)]
    ∧ dget (errorResult name e).measurements "error" = some (PyVal.str e)
    ∧ (∀ (mcs1 mcs2 : List MethodEntry) (a : ResultsAggregator),
        (mcs1 ++ mc :: mcs2).foldl (fun x m => executeMethod reg ctx cat m x) a =
          mcs2.foldl (fun x m => executeMethod reg ctx cat m x)
            ((mcs1.foldl (fun x m => executeMethod reg ctx cat m x) a).add_result cat
              (errorResult name e)))
    ∧ (∀ (cfg1 cfg2 : AnalysesConfig) (a : ResultsAggregator),
        executeAnalyses reg ctx (cfg1 ++ cfg2) a =
          executeAnalyses reg ctx cfg2 (executeAnalyses reg ctx cfg1 a)) := by
  have hone : ∀ a : ResultsAggregator,
      executeMethod reg ctx cat mc a = a.add_result cat (errorResult name e) := by
    intro a; simp [executeMethod, h1, h2, h3, h4]
  refine ⟨hone agg, ?_, rfl, rfl, ?_, ?_⟩
  · rw [hone agg]; rfl
  · intro mcs1 mcs2 a
    rw [List.foldl_append, List.foldl_cons, hone]
  · intro cfg1 cfg2 a
    simp [executeAnalyses, List.foldl_append]

theorem raising_method_isolated_witness :
    (({ name := some "m1", params := [] : MethodEntry}).name = some "m1"
      ∧ ¬ ("m1" : String) = ""
      ∧ MethodRegistry.get_method regRaisingEmpty "m1" =
          some { identifier := "m1", category := "temporal",
                 function := fun _ _ => Except.error "",
                 description := "", default_params := [] }
      ∧ ({ identifier := "m1", category := "temporal",
           function := fun _ _ => Except.error "",
           description := "", default_params := [] : MethodRegistration }).function
            ctx0 (dmerge [] []) = Except.error "")
    ∧ executeMethod regRaisingEmpty ctx0 "temporal"
        { name := some "m1", params := [] } (ResultsAggregator.init "t0")
      = (ResultsAggregator.init "t0").add_result "temporal" (errorResult "m1" "") :=
  ⟨⟨rfl, by decide, rfl, rfl⟩,
   (raising_method_isolated regRaisingEmpty ctx0 "temporal"
      { name := some "m1", params := [] } (ResultsAggregator.init "t0") "m1" ""
      { identifier := "m1", category := "temporal",
        function := fun _ _ => Except.error "",
        description := "", default_params := [] }
      rfl (by decide) rfl rfl).1⟩

/-- A result a callable can legitimately return without raising, which
nevertheless carries `metrics.execution_failed = true` (nothing in the
runner prevents or rewrites this). -/
def flaggedOk : AnalysisResult :=
  { method := "m2", measurements := [],
    metrics := some [("execution_failed", PyVal.bool true)] }

/-- Registry used to refute claim C2 as stated: its one callable
returns `flaggedOk` normally. -/
def regFlagged : Registry :=
  [("m2", { identifier := "m2", category := "spectral",
            function := fun _ _ => Except.ok flaggedOk,
            description := "", default_params := [] })]

/-- Counterexample to claim C2 as stated: the callable of `regFlagged`
returns normally (no exception), yet the single result appended for it
carries `metrics.execution_failed = true`, because the runner stores a
returned result verbatim. -/
theorem normal_return_with_flag_counterexample :
    (executeMethod regFlagged ctx0 "spectral"
        { name := some "m2", params := [] }
        (ResultsAggregator.init "t0")).results
      = [("spectral", [flaggedOk])]
    ∧ (dget regFlagged "m2").map
        (fun rr => rr.function ctx0 (dmerge rr.default_params []))
      = some (Except.ok flaggedOk)
    ∧ dget (flaggedOk.metrics.getD []) "execution_failed" = some (PyVal.bool true) :=
  ⟨rfl, rfl, rfl⟩

/-- Claim C2 as amended: the runner itself sets
`metrics.execution_failed` only on the synthetic result it creates for
an invocation that raised; an invocation that returns normally has its
result appended verbatim, with no flag added by the runner (so a stored
result carries the flag without an exception only if the callable
itself put it there, as `regFlagged` shows); and every resolvable
invocation contributes exactly one result, never both a normal and a
flagged one. -/
theorem flag_set_by_runner_only_on_exception (reg : Registry)
    (ctx : AnalysisContext) (cat : String) (mc : MethodEntry)
    (agg : ResultsAggregator) (name : String) (r : MethodRegistration)
    (h1 : mc.name = some name) (h2 : ¬ name = "")
    (h3 : MethodRegistry.get_method reg name = some r) :
    (∀ res, r.function ctx (dmerge r.default_params mc.params) = Except.ok res →
        executeMethod reg ctx cat mc agg = agg.add_result cat res)
    ∧ (∀ e, r.function ctx (dmerge r.default_params mc.params) = Except.error e →
        executeMethod reg ctx cat mc agg = agg.add_result cat (errorResult name e)
        ∧ (errorResult name e).metrics = some [("execution_failed", PyVal.bool true)])
    ∧ (methodResults reg ctx mc).length = 1 := by
  refine ⟨?_, ?_, ?_⟩
  · intro res hf
    simp [executeMethod, h1, h2, h3, hf]
  · intro e hf
    exact ⟨by simp [executeMethod, h1, h2, h3, hf], rfl⟩
  · cases hf : r.function ctx (dmerge r.default_params mc.params) with
    | ok res => simp [methodResults, h1, h2, h3, hf]
    | error e => simp [methodResults, h1, h2, h3, hf]

theorem flag_set_by_runner_only_on_exception_witness :
    (({ name := some "m2", params := [] : MethodEntry}).name = some "m2"
      ∧ ¬ ("m2" : String) = ""
      ∧ MethodRegistry.get_method regFlagged "m2" =
          some { identifier := "m2", category := "spectral",
                 function := fun _ _ => Except.ok flaggedOk,
                 description := "", default_params := [] })
    ∧ (methodResults regFlagged ctx0
        { name := some "m2", params := [] }).length = 1 :=
  ⟨⟨rfl, by decide, rfl⟩,
   (flag_set_by_runner_only_on_exception regFlagged ctx0 "spectral"
      { name := some "m2", params := [] } (ResultsAggregator.init "t0") "m2"
      { identifier := "m2", category := "spectral",
        function := fun _ _ => Except.ok flaggedOk,
        description := "", default_params := [] }
      rfl (by decide) rfl).2.2⟩

/-- Claim C8: starting from a fresh aggregator, the run attempts
exactly the enabled, resolvable configured methods and the snapshot
records their results in configuration order — `runSpec` iterates
categories in declared order and the methods of each enabled category
in list order, each attempted method contributing exactly one result
under its category, a disabled category or one with zero methods
contributing zero results (`categoryResults` is empty there) without
being an error.  The `Nodup` hypothesis states that configured category
names are distinct, as they are for a parsed configuration mapping. -/
theorem run_matches_configuration_order (reg : Registry) (ctx : AnalysisContext)
    (cfg : AnalysesConfig) (ts : String) (hnd : (keys cfg).Nodup) :
    (executeAnalyses reg ctx cfg (ResultsAggregator.init ts)).results
      = runSpec reg ctx cfg
    ∧ (∀ cc : CategoryConfig, cc.enabled = false → categoryResults reg ctx cc = [])
    ∧ (∀ cc : CategoryConfig, cc.methods = [] → categoryResults reg ctx cc = []) := by
  refine ⟨?_, ?_, ?_⟩
  · rw [executeAnalyses_eq reg ctx cfg (ResultsAggregator.init ts) hnd
      (fun c _ => rfl)]
    simp [ResultsAggregator.init]
  · intro cc h; simp [categoryResults, h]
  · intro cc h; simp [categoryResults, h]

/-- Registry for the configuration-order scenario: two temporal and two
spectral methods, the second temporal one raising. -/
def regW : Registry :=
  [("t1", { identifier := "t1", category := "temporal",
            function := fun _ _ => Except.ok
              { method := "t1", measurements := [("v", PyVal.int 1)] },
            description := "", default_params := [] }),
   ("t2", { identifier := "t2", category := "temporal",
            function := fun _ _ => Except.error "boom",
            description := "", default_params := [] }),
   ("s1", { identifier := "s1", category := "spectral",
            function := fun _ _ => Except.ok
              { method := "s1", measurements := [("v", PyVal.int 2)] },
            description := "", default_params := [] }),
   ("s2", { identifier := "s2", category := "spectral",
            function := fun _ _ => Except.ok
              { method := "s2", measurements := [("v", PyVal.int 3)] },
            description := "", default_params := [] })]

/-- Configuration for the scenario: two enabled categories with two
methods each, in declared order. -/
def cfgW : AnalysesConfig :=
  [("temporal", { enabled := true,
                  methods := [{ name := some "t1", params := [] },
                              { name := some "t2", params := [] }] }),
   ("spectral", { enabled := true,
                  methods := [{ name := some "s1", params := [] },
                              { name := some "s2", params := [] }] })]

theorem run_matches_configuration_order_witness :
    (keys cfgW).Nodup
    ∧ (executeAnalyses regW ctx0 cfgW (ResultsAggregator.init "t0")).results
        = runSpec regW ctx0 cfgW :=
  ⟨by decide, (run_matches_configuration_order regW ctx0 cfgW "t0" (by decide)).1⟩

example :
    runSpec regW ctx0 cfgW =
      [("temporal",
        [{ method := "t1", measurements := [("v", PyVal.int 1)] },
         errorResult "t2" "boom"]),
       ("spectral",
        [{ method := "s1", measurements := [("v", PyVal.int 2)] },
         { method := "s2", measurements := [("v", PyVal.int 3)] }])] := rfl
